import Mathlib

/-!
Verification development for the Canopy "send" blockchain plugin
(`plugin/proto_utils.py`, `plugin/core/{keys,validation,contract}.py` and
the parallel `canopy_plugin` implementation).

Shallow embedding conventions:
* Python `bytes` values are `List Nat` (each entry a byte value).
* Python values that may be `int` or `str` are the inductive `PyAmount`;
  address arguments that may be `bytes` or `str` are `PyAddress`.
* Functions that `raise` are embedded in `Except Unit` / a dedicated
  error inductive; `Except.error` corresponds to a raised exception.
* Protobuf (de)serialization is generated code outside the repository's
  source; decoders appear as oracle arguments
  (`Bytes → Option Account`, ...) and written values are kept typed in
  the write batch (`WriteVal`) instead of opaque marshalled bytes.
-/

deriving instance DecidableEq for Except

set_option maxRecDepth 10000

namespace CanopyPlugin

abbrev Bytes := List Nat

/-- A Python value that is either an `int` or a `str`
(the `Amount = Union[int, str]` alias of `validation.py`). -/
inductive PyAmount where
  | int (i : Int)
  | str (s : String)
deriving DecidableEq

/-- A Python value that is either `bytes` or a `str`
(the `Address = Union[bytes, str]` alias of `validation.py`). -/
inductive PyAddress where
  | bytes (b : Bytes)
  | str (s : String)
deriving DecidableEq

/-- ASCII decimal digit test, as used by Python `int(...)` parsing. -/
def isAsciiDigit (c : Char) : Bool :=
  decide ('0' ≤ c) && decide (c ≤ '9')

/-- Value of a run of decimal digits; `none` when empty or a non-digit
occurs (models the `ValueError` of Python `int(...)`). -/
def digitsToNat (cs : List Char) : Option Nat :=
  if cs = [] then none
  else if cs.all isAsciiDigit then
    some (cs.foldl (fun a c => a * 10 + (c.toNat - 48)) 0)
  else none

/-- Embedding of the Python builtin `int(s)` on strings: optional
surrounding whitespace, an optional sign, then base-10 digits.
(Digit-group underscores are not modelled; no claim involves them.) -/
def parsePyInt (s : String) : Option Int :=
  let cs := ((s.data.dropWhile Char.isWhitespace).reverse.dropWhile
    Char.isWhitespace).reverse
  match cs with
  | '-' :: rest => (digitsToNat rest).map (fun n => -(n : Int))
  | '+' :: rest => (digitsToNat rest).map (fun n => (n : Int))
  | _ => (digitsToNat cs).map (fun n => (n : Int))

/-- The `try:` block of `validate_amount`: coerce an int-or-string to an
integer, `none` on a parse failure. -/
def pyToInt : PyAmount → Option Int
  | .int i => some i
  | .str s => parsePyInt s

/-- `validation.validate_amount`: true iff the coerced integer is
strictly positive; a parse failure yields `False`. -/
def validate_amount (a : PyAmount) : Bool :=
  match pyToInt a with
  | some n => decide (0 < n)
  | none => false

/-- `validation.normalize_amount`: validate, then return the integer;
`Except.error` models the raised `ValueError`. -/
def normalize_amount (a : PyAmount) : Except Unit Int :=
  if validate_amount a then
    match pyToInt a with
    | some n => .ok n
    | none => .error ()
  else .error ()

/-- Value of one hex digit, `none` for a non-hex character. -/
def hexVal (c : Char) : Option Nat :=
  if decide ('0' ≤ c) && decide (c ≤ '9') then some (c.toNat - 48)
  else if decide ('a' ≤ c) && decide (c ≤ 'f') then some (c.toNat - 87)
  else if decide ('A' ≤ c) && decide (c ≤ 'F') then some (c.toNat - 55)
  else none

/-- Embedding of Python `bytes.fromhex` on a list of characters: strict
pairs of hex digits, `none` on an odd count or a non-hex character. -/
def hexDecodePairs : List Char → Option Bytes
  | [] => some []
  | c1 :: c2 :: rest =>
      match hexVal c1, hexVal c2, hexDecodePairs rest with
      | some h, some l, some r => some ((h * 16 + l) :: r)
      | _, _, _ => none
  | [_] => none

/-- UTF-8 encoding of one character, as produced by Python
`str.encode()`. -/
def utf8Bytes (c : Char) : Bytes :=
  let n := c.toNat
  if n < 128 then [n]
  else if n < 2048 then [192 + n / 64, 128 + n % 64]
  else if n < 65536 then [224 + n / 4096, 128 + n / 64 % 64, 128 + n % 64]
  else [240 + n / 262144, 128 + n / 4096 % 64, 128 + n / 64 % 64, 128 + n % 64]

/-- Python `str.encode()`: UTF-8 bytes of the string. -/
def strEncode (s : String) : Bytes :=
  s.data.foldr (fun c acc => utf8Bytes c ++ acc) []

/-- Does the character list begin with `0x` (the
`address.startswith` test of `validate_address`)? -/
def hasHexMark : List Char → Bool
  | '0' :: 'x' :: _ => true
  | _ => false

/-- The decoding step shared by `validate_address` / `normalize_address`:
raw bytes are taken as-is, a string starting with `0x` is hex-decoded
(`none` models the raised exception on bad hex), any other string is its
UTF-8 bytes. -/
def decodeAddress : PyAddress → Option Bytes
  | .bytes b => some b
  | .str s => if hasHexMark s.data then hexDecodePairs (s.data.drop 2)
              else some (strEncode s)

/-- `validation.validate_address`: true iff the decoded value has length
exactly 20; a decoding failure yields `False`. -/
def validate_address (a : PyAddress) : Bool :=
  match decodeAddress a with
  | some b => decide (b.length = 20)
  | none => false

/-- `validation.normalize_address`: validate, then return the decoded
bytes; `Except.error` models the raised `ValueError`. -/
def normalize_address (a : PyAddress) : Except Unit Bytes :=
  if validate_address a then
    match decodeAddress a with
    | some b => .ok b
    | none => .error ()
  else .error ()

/-- `proto_utils.join_len_prefix`: each truthy (non-`None`, non-empty)
item contributes one length byte followed by its bytes; an item longer
than 255 bytes raises (`Except.error`). -/
def joinLenBytes : List (Option Bytes) → Except Unit Bytes
  | [] => .ok []
  | none :: rest => joinLenBytes rest
  | some [] :: rest => joinLenBytes rest
  | some b :: rest =>
      if 255 < b.length then .error ()
      else
        match joinLenBytes rest with
        | .ok r => .ok (b.length :: b ++ r)
        | .error e => .error e

/-- 8-byte big-endian encoding of a natural number below `2 ^ 64`
(Python `struct.pack` with a big-endian unsigned 8-byte format). -/
def be64 (v : Nat) : Bytes :=
  (List.range 8).map (fun i => v / 256 ^ (7 - i) % 256)

/-- `proto_utils.format_uint64` on an integer input: range-check then
big-endian encode; `Except.error` models the raised `ValueError`. -/
def format_uint64 (v : Int) : Except Unit Bytes :=
  if 0 ≤ v ∧ v < (2 : Int) ^ 64 then .ok (be64 v.toNat) else .error ()

/-- `keys.ACCOUNT_PREFIX` (store key tag for accounts). -/
def accountKeyTag : Bytes := [1]

/-- `keys.POOL_PREFIX` (store key tag for pools). -/
def poolKeyTag : Bytes := [2]

/-- `keys.PARAMS_PREFIX` (store key tag for governance parameters). -/
def paramsKeyTag : Bytes := [7]

/-- The `address if isinstance(address, bytes) else address.encode()`
coercion of `key_for_account` (note: no hex handling here). -/
def addressToBytes : PyAddress → Bytes
  | .bytes b => b
  | .str s => strEncode s

/-- `keys.key_for_account`: length-prefixed join of the account tag and
the address bytes. -/
def key_for_account (a : PyAddress) : Except Unit Bytes :=
  joinLenBytes [some accountKeyTag, some (addressToBytes a)]

/-- `keys.key_for_fee_pool`: length-prefixed join of the pool tag and
the 8-byte big-endian chain id. -/
def key_for_fee_pool (chainId : Int) : Except Unit Bytes :=
  match format_uint64 chainId with
  | .ok b => joinLenBytes [some poolKeyTag, some b]
  | .error e => .error e

/-- `keys.key_for_fee_params`: length-prefixed join of the params tag
and the ASCII suffix `/f/` (bytes 47, 102, 47). -/
def key_for_fee_params : Except Unit Bytes :=
  joinLenBytes [some paramsKeyTag, some [47, 102, 47]]

/-- Modelled from the spec's general encoding rule, for comparison with
`join_len_prefix`: the concatenation, in argument order, of one length
byte followed by the argument's bytes, skipping empty or absent
arguments. -/
def lenPrefixedConcat : List (Option Bytes) → Bytes
  | [] => []
  | none :: rest => lenPrefixedConcat rest
  | some [] :: rest => lenPrefixedConcat rest
  | some b :: rest => b.length :: b ++ lenPrefixedConcat rest

/-- `proto.Account`: an address and a balance. -/
structure Account where
  address : Bytes
  amount : Int
deriving DecidableEq

/-- `proto.Pool`: a chain id and an accumulated fee balance. -/
structure Pool where
  id : Int
  amount : Int
deriving DecidableEq

/-- `proto.FeeParams`: the governance minimum send fee. -/
structure FeeParams where
  sendFee : Int
deriving DecidableEq

/-- `proto.MessageSend`: sender, recipient and transfer amount. -/
structure MessageSend where
  fromAddress : Bytes
  toAddress : Bytes
  amount : Int
deriving DecidableEq

/-- The host-reported error of a read/write response (`PluginError`;
only the code and module tag matter to the embedded logic). -/
structure HostErr where
  code : Int
  module : String
deriving DecidableEq

/-- `PluginKeyRead`: a correlation-tagged key in a batched read. -/
structure KeyRead where
  queryId : Nat
  key : Bytes
deriving DecidableEq

/-- `PluginStateReadRequest`: one batched read. -/
structure StateReadRequest where
  keys : List KeyRead
deriving DecidableEq

/-- `PluginStateEntry`: one key/value pair of a read result. -/
structure StateEntry where
  key : Bytes
  value : Bytes
deriving DecidableEq

/-- `PluginReadResult`: the entries answering one query id. -/
structure ReadResult where
  queryId : Nat
  entries : List StateEntry
deriving DecidableEq

/-- `PluginStateReadResponse`: optional error plus per-query results. -/
structure StateReadResponse where
  error : Option HostErr
  results : List ReadResult
deriving DecidableEq

/-- A value written by the plugin: a marshalled account or pool, kept
typed here because protobuf serialization is external generated code. -/
inductive WriteVal where
  | acct (a : Account)
  | pool (p : Pool)
deriving DecidableEq

/-- `PluginSetOp`: one key/value set of a write batch. -/
structure SetOp where
  key : Bytes
  value : WriteVal
deriving DecidableEq

/-- `PluginDeleteOp`: one key deletion of a write batch. -/
structure DeleteOp where
  key : Bytes
deriving DecidableEq

/-- `PluginStateWriteRequest`: the single atomic write batch. -/
structure StateWriteRequest where
  sets : List SetOp
  deletes : List DeleteOp
deriving DecidableEq

/-- The `Any`-style message envelope `tx.msg`. -/
structure AnyMsg where
  typeUrl : String
  value : Bytes
deriving DecidableEq

/-- The transaction fields `check_tx` / `deliver_tx` use. -/
structure Tx where
  fee : PyAmount
  msg : AnyMsg
deriving DecidableEq

/-- The characters of the send-message type marker. -/
def sendTypeMark : List Char := "/types.MessageSend".data

/-- The `tx.msg.type_url.endswith` test of `check_tx` / `deliver_tx`. -/
def isSendTypeUrl (u : String) : Bool :=
  decide ((u.data.reverse.take sendTypeMark.length).reverse = sendTypeMark)

/-- Error outcomes of `check_tx`. The code-1 "contract" wrap of an
uncaught exception (a raised unmarshal / parse failure) appears as
`contractFailure`; the two `ParameterError` texts appear as
`paramsNotFound` and `normalizeFailed`. -/
inductive CheckErr where
  | notInitialized
  | readError (e : HostErr)
  | paramsNotFound
  | contractFailure
  | normalizeFailed
  | feeBelowLimit (fee minimum : Int)
  | unsupportedMsgType (typeUrl : String)
  | invalidAddress (addr : Bytes)
  | invalidAmount (amount : Int)
deriving DecidableEq

/-- The successful `check_tx` payload: recipient and required signers. -/
structure CheckOk where
  recipient : Bytes
  authorizedSigners : List Bytes
deriving DecidableEq

/-- `Contract._check_message_send`: validate both addresses and the
amount; on success the sender is the sole authorized signer. -/
def checkMessageSend (m : MessageSend) : Except CheckErr CheckOk :=
  if ¬ validate_address (.bytes m.fromAddress) then
    .error (.invalidAddress m.fromAddress)
  else if ¬ validate_address (.bytes m.toAddress) then
    .error (.invalidAddress m.toAddress)
  else if ¬ validate_amount (.int m.amount) then
    .error (.invalidAmount m.amount)
  else .ok ⟨m.toAddress, [m.fromAddress]⟩

/-- `Contract.check_tx`, as a function of the host's fee-parameter read
response and of the protobuf decode oracles (`unmarshal(FeeParams, ...)`
and `MessageSend.ParseFromString`, generated code external to the
repository; `none` models a raised decode error). The second component
records whether `tx.msg` was decoded during the call. -/
def checkTx (initialized : Bool) (feeParamsResponse : StateReadResponse)
    (decodeFeeParams : Bytes → Option FeeParams)
    (parseMsgSend : Bytes → Option MessageSend) (tx : Tx) :
    Except CheckErr CheckOk × Bool :=
  if ¬ initialized then (.error .notInitialized, false)
  else
    match feeParamsResponse.error with
    | some e => (.error (.readError e), false)
    | none =>
      match feeParamsResponse.results with
      | [] => (.error .paramsNotFound, false)
      | r0 :: _ =>
        match r0.entries with
        | [] => (.error .paramsNotFound, false)
        | e0 :: _ =>
          if e0.value = [] then (.error .paramsNotFound, false)
          else
            match decodeFeeParams e0.value with
            | none => (.error .contractFailure, false)
            | some fp =>
              match normalize_amount tx.fee,
                    normalize_amount (.int fp.sendFee) with
              | .ok requestFee, .ok minSendFee =>
                if requestFee < minSendFee then
                  (.error (.feeBelowLimit requestFee minSendFee), false)
                else if isSendTypeUrl tx.msg.typeUrl then
                  match parseMsgSend tx.msg.value with
                  | some m => (checkMessageSend m, true)
                  | none => (.error .contractFailure, true)
                else (.error (.unsupportedMsgType tx.msg.typeUrl), false)
              | _, _ => (.error .normalizeFailed, false)

/-- Error outcomes of `deliver_tx`; `Except.error` issues no write. -/
inductive DeliverErr where
  | notInitialized
  | contractFailure
  | readError
  | insufficientFunds (required available : Int)
  | unsupportedMsgType (typeUrl : String)
deriving DecidableEq

/-- The `from_account` / `from_amount` computation of
`Contract._unmarshal_deliver_message_required_data`: the sender's
available balance; absent or empty bytes give balance 0, while bytes
that fail to decode raise (`none` — the sender decode is not defaulted). -/
def fromAmountOfRead (decodeAccount : Bytes → Option Account) :
    Option Bytes → Option Int
  | none => some 0
  | some b =>
      if b = [] then some 0
      else
        match decodeAccount b with
        | some a => some a.amount
        | none => none

/-- The `to_account` computation of the same function: decode with a
zero-balance account keyed to `to` as default on absence or failure. -/
def toAccountOfRead (decodeAccount : Bytes → Option Account)
    (toBytes : Option Bytes) (toAddr : Bytes) : Account :=
  match toBytes with
  | none => ⟨toAddr, 0⟩
  | some b =>
      if b = [] then ⟨toAddr, 0⟩
      else
        match decodeAccount b with
        | some a => a
        | none => ⟨toAddr, 0⟩

/-- The `fee_pool` computation of the same function: decode with a zero
default (`Pool(amount=0)` leaves the proto id field zero). -/
def feePoolOfRead (decodePool : Bytes → Option Pool)
    (poolBytes : Option Bytes) : Pool :=
  match poolBytes with
  | none => ⟨0, 0⟩
  | some b =>
      if b = [] then ⟨0, 0⟩
      else
        match decodePool b with
        | some p => p
        | none => ⟨0, 0⟩

/-- The batched read issued by
`Contract._read_deliver_message_required_data`: one request holding the
fee-pool, sender and recipient keys, tagged with the three per-call
`random.randint(0, 2**53 - 1)` draws of `_generate_query_ids`, supplied
here as the oracle inputs `qFrom`, `qTo`, `qFee`. -/
def readDeliverRequest (qFrom qTo qFee : Nat) (chainId : Int)
    (msg : MessageSend) : Except DeliverErr StateReadRequest := do
  let fromKey ← match key_for_account (.bytes msg.fromAddress) with
    | .ok k => pure k
    | .error _ => throw DeliverErr.contractFailure
  let toKey ← match key_for_account (.bytes msg.toAddress) with
    | .ok k => pure k
    | .error _ => throw DeliverErr.contractFailure
  let feePoolKey ← match key_for_fee_pool chainId with
    | .ok k => pure k
    | .error _ => throw DeliverErr.contractFailure
  return ⟨[⟨qFee, feePoolKey⟩, ⟨qFrom, fromKey⟩, ⟨qTo, toKey⟩]⟩

/-- `Contract._deliver_message_send`, as a function of the host's read
results (`fromBytes`, `toBytes`, `feePoolBytes`, with `readErr` the
error field of the read response) and the protobuf decode oracles.
`Except.ok` carries the single `state_write` request the call submits;
every `Except.error` outcome issues no write at all. -/
def deliverMessageSend (initialized : Bool) (chainId : Int)
    (decodeAccount : Bytes → Option Account)
    (decodePool : Bytes → Option Pool) (readErr : Bool)
    (fromBytes toBytes feePoolBytes : Option Bytes)
    (msg : MessageSend) (fee : PyAmount) :
    Except DeliverErr StateWriteRequest := do
  let transactionFee ← match normalize_amount fee with
    | .ok f => pure f
    | .error _ => throw DeliverErr.contractFailure
  if ¬ initialized then throw DeliverErr.notInitialized
  let _ ← match key_for_account (.bytes msg.fromAddress) with
    | .ok k => pure k
    | .error _ => throw DeliverErr.contractFailure
  let _ ← match key_for_account (.bytes msg.toAddress) with
    | .ok k => pure k
    | .error _ => throw DeliverErr.contractFailure
  let _ ← match key_for_fee_pool chainId with
    | .ok k => pure k
    | .error _ => throw DeliverErr.contractFailure
  if readErr then throw DeliverErr.readError
  let fromAmount ← match fromAmountOfRead decodeAccount fromBytes with
    | some v => pure v
    | none => throw DeliverErr.contractFailure
  let toAccount := toAccountOfRead decodeAccount toBytes msg.toAddress
  let feePool := feePoolOfRead decodePool feePoolBytes
  let messageAmount ← match normalize_amount (.int msg.amount) with
    | .ok m => pure m
    | .error _ => throw DeliverErr.contractFailure
  let amountToDeduct := messageAmount + transactionFee
  if fromAmount < amountToDeduct then
    throw (DeliverErr.insufficientFunds amountToDeduct fromAmount)
  let fromKey ← match key_for_account (.bytes msg.fromAddress) with
    | .ok k => pure k
    | .error _ => throw DeliverErr.contractFailure
  let toKey ← match key_for_account (.bytes msg.toAddress) with
    | .ok k => pure k
    | .error _ => throw DeliverErr.contractFailure
  let feePoolKey ← match key_for_fee_pool chainId with
    | .ok k => pure k
    | .error _ => throw DeliverErr.contractFailure
  let fromAddrNorm ← match normalize_address (.bytes msg.fromAddress) with
    | .ok b => pure b
    | .error _ => throw DeliverErr.contractFailure
  let updatedFromAccount : Account :=
    ⟨fromAddrNorm, fromAmount - amountToDeduct⟩
  let toAddrNorm ← match normalize_address (.bytes msg.toAddress) with
    | .ok b => pure b
    | .error _ => throw DeliverErr.contractFailure
  let updatedToAccount : Account :=
    if fromKey = toKey then ⟨toAddrNorm, fromAmount - transactionFee⟩
    else ⟨toAddrNorm, toAccount.amount + messageAmount⟩
  let updatedFeePool : Pool := ⟨chainId, feePool.amount + transactionFee⟩
  let setsAndDeletes :=
    if updatedFromAccount.amount = 0 ∧ ¬ fromKey = toKey then
      ([SetOp.mk feePoolKey (.pool updatedFeePool)], [DeleteOp.mk fromKey])
    else
      ([SetOp.mk feePoolKey (.pool updatedFeePool),
        SetOp.mk fromKey (.acct updatedFromAccount)], ([] : List DeleteOp))
  let finalSets :=
    if fromKey = toKey then setsAndDeletes.1
    else setsAndDeletes.1 ++ [SetOp.mk toKey (.acct updatedToAccount)]
  return ⟨finalSets, setsAndDeletes.2⟩

/-- `Contract.deliver_tx`: dispatch on the message type marker, parse
the send message, then run `_deliver_message_send`. -/
def deliverTx (initialized : Bool) (chainId : Int)
    (decodeAccount : Bytes → Option Account)
    (decodePool : Bytes → Option Pool) (readErr : Bool)
    (fromBytes toBytes feePoolBytes : Option Bytes)
    (parseMsgSend : Bytes → Option MessageSend) (tx : Tx) :
    Except DeliverErr StateWriteRequest :=
  if isSendTypeUrl tx.msg.typeUrl then
    match parseMsgSend tx.msg.value with
    | some m =>
        deliverMessageSend initialized chainId decodeAccount decodePool
          readErr fromBytes toBytes feePoolBytes m tx.fee
    | none => .error .contractFailure
  else .error (.unsupportedMsgType tx.msg.typeUrl)


/-- `be64` written out as an explicit eight-byte list. -/
theorem be64_cons (v : Nat) :
    be64 v = v / 256 ^ 7 % 256 :: v / 256 ^ 6 % 256 :: v / 256 ^ 5 % 256 ::
      v / 256 ^ 4 % 256 :: v / 256 ^ 3 % 256 :: v / 256 ^ 2 % 256 ::
      v / 256 ^ 1 % 256 :: v / 256 ^ 0 % 256 :: [] := rfl

/-- `key_for_account` on a non-empty byte address of length at most 255:
the tag byte is itself length-prefixed, so the key starts `1, 1`. -/
theorem key_for_account_ok (a : Bytes) (h1 : a ≠ []) (h2 : a.length ≤ 255) :
    key_for_account (.bytes a) = .ok (1 :: 1 :: a.length :: a) := by
  obtain ⟨x, xs, rfl⟩ := List.exists_cons_of_ne_nil h1
  have hlen : ¬ (255 < xs.length + 1) := by simp at h2; omega
  simp [key_for_account, addressToBytes, accountKeyTag, joinLenBytes, hlen]

/-- `key_for_fee_pool` on an in-range chain id. -/
theorem key_for_fee_pool_ok (c : Int) (h1 : 0 ≤ c) (h2 : c < (2 : Int) ^ 64) :
    key_for_fee_pool c = .ok (1 :: 2 :: 8 :: be64 c.toNat) := by
  simp only [key_for_fee_pool, format_uint64, if_pos (And.intro h1 h2)]
  rw [be64_cons]
  simp [joinLenBytes, poolKeyTag]

/-- `normalize_address` returns a 20-byte bytes address unchanged. -/
theorem normalize_address_bytes_ok (a : Bytes) (h : a.length = 20) :
    normalize_address (.bytes a) = .ok a := by
  simp [normalize_address, validate_address, decodeAddress, h]

/-- `normalize_amount` returns a positive integer amount unchanged. -/
theorem normalize_amount_int_ok (i : Int) (h : 0 < i) :
    normalize_amount (.int i) = .ok i := by
  simp [normalize_amount, validate_amount, pyToInt, h]

/-- Claim C6: `join_len_prefix` returns the concatenation, in argument
order, of one length byte followed by each argument's bytes, skipping
empty or absent arguments, whenever every argument has length at most
255; an argument longer than 255 bytes causes an error. -/
theorem join_len_rule (items : List (Option Bytes)) :
    ((∀ b : Bytes, some b ∈ items → b.length ≤ 255) →
      joinLenBytes items = .ok (lenPrefixedConcat items)) ∧
    ((∃ b : Bytes, some b ∈ items ∧ 255 < b.length) →
      joinLenBytes items = .error ()) := by
  induction items with
  | nil =>
    refine ⟨fun _ => rfl, ?_⟩
    rintro ⟨b, hb, _⟩
    exact absurd hb (List.not_mem_nil _)
  | cons hd rest ih =>
    match hd with
    | none =>
      refine ⟨fun h => ?_, fun he => ?_⟩
      · simp only [joinLenBytes, lenPrefixedConcat]
        exact ih.1 (fun b hb => h b (List.mem_cons_of_mem _ hb))
      · obtain ⟨b, hb, hb255⟩ := he
        simp only [joinLenBytes]
        refine ih.2 ⟨b, ?_, hb255⟩
        rcases List.mem_cons.mp hb with heq | hmem
        · exact absurd heq (by simp)
        · exact hmem
    | some [] =>
      refine ⟨fun h => ?_, fun he => ?_⟩
      · simp only [joinLenBytes, lenPrefixedConcat]
        exact ih.1 (fun b hb => h b (List.mem_cons_of_mem _ hb))
      · obtain ⟨b, hb, hb255⟩ := he
        simp only [joinLenBytes]
        refine ih.2 ⟨b, ?_, hb255⟩
        rcases List.mem_cons.mp hb with heq | hmem
        · have : b = [] := by simpa using heq
          subst this
          simp at hb255
        · exact hmem
    | some (x :: xs) =>
      by_cases h255 : 255 < xs.length + 1
      · refine ⟨fun h => ?_, fun _ => ?_⟩
        · have hle := h (x :: xs) (List.mem_cons_self _ _)
          simp only [List.length_cons] at hle
          exact absurd h255 (by omega)
        · simp [joinLenBytes, h255]
      · refine ⟨fun h => ?_, fun he => ?_⟩
        · have hrest := ih.1 (fun b hb => h b (List.mem_cons_of_mem _ hb))
          simp [joinLenBytes, lenPrefixedConcat, h255, hrest]
        · obtain ⟨b, hb, hb255⟩ := he
          rcases List.mem_cons.mp hb with heq | hmem
          · have : b = x :: xs := by simpa using heq
            subst this
            simp only [List.length_cons] at hb255
            exact absurd hb255 h255
          · have hrest := ih.2 ⟨b, hmem, hb255⟩
            simp [joinLenBytes, h255, hrest]

/-- Witness for `join_len_rule` at concrete inputs. -/
theorem join_len_rule_witness :
    joinLenBytes [some [5, 6], none, some [], some [7]] =
      .ok (lenPrefixedConcat [some [5, 6], none, some [], some [7]]) ∧
    joinLenBytes [some [9], some (List.replicate 256 0)] = .error () := by
  constructor
  · refine (join_len_rule _).1 ?_
    intro b hb
    simp at hb
    rcases hb with rfl | rfl | rfl <;> decide
  · exact (join_len_rule _).2 ⟨List.replicate 256 0, by decide, by decide⟩

/-- Claim C2 is false as stated: the account key carries a length byte
for the one-byte tag as well, so it is `0x01 0x01 0x14 || a`, not
`0x01 0x14 || a`; likewise the fee-pool key is `0x01 0x02 0x08 || be64 c`. -/
theorem key_encoding_counterexample :
    ¬ (key_for_account (.bytes (List.replicate 20 0)) =
         .ok (1 :: 20 :: List.replicate 20 0) ∧
       key_for_fee_pool 7 = .ok (2 :: 8 :: be64 7)) := by decide

/-- Claim C2 (amended): for every 20-byte address `a`,
`key_for_account(a)` is `0x01 || 0x01 || 0x14 || a` (both the one-byte
account tag and the address are length-prefixed), and for every chain id
`c` in uint64 range, `key_for_fee_pool(c)` is
`0x01 || 0x02 || 0x08 || be64(c)`. -/
theorem key_encoding_amended :
    (∀ a : Bytes, a.length = 20 →
      key_for_account (.bytes a) = .ok (1 :: 1 :: 20 :: a)) ∧
    (∀ c : Int, 0 ≤ c → c < (2 : Int) ^ 64 →
      key_for_fee_pool c = .ok (1 :: 2 :: 8 :: be64 c.toNat)) := by
  constructor
  · intro a h
    have := key_for_account_ok a (by intro hnil; subst hnil; simp at h) (by omega)
    rwa [h] at this
  · intro c h1 h2
    exact key_for_fee_pool_ok c h1 h2

/-- Witness for `key_encoding_amended` at concrete inputs. -/
theorem key_encoding_amended_witness :
    key_for_account (.bytes (List.replicate 20 0)) =
      .ok (1 :: 1 :: 20 :: List.replicate 20 0) ∧
    key_for_fee_pool 5 = .ok (1 :: 2 :: 8 :: be64 (Int.toNat 5)) :=
  ⟨key_encoding_amended.1 _ (by decide),
   key_encoding_amended.2 5 (by decide) (by decide)⟩

/-- Claim C7: `validate_amount` is true iff its input, coerced to an
integer (an integer as-is, a string parsed base-10), is strictly
positive; a parse failure yields false; with the spec's examples. -/
theorem validate_amount_charact :
    (∀ i : Int, validate_amount (.int i) = decide (0 < i)) ∧
    (∀ s : String, ∀ n : Int, parsePyInt s = some n →
      validate_amount (.str s) = decide (0 < n)) ∧
    (∀ s : String, parsePyInt s = none → validate_amount (.str s) = false) ∧
    validate_amount (.int 0) = false ∧
    validate_amount (.int (-1)) = false ∧
    validate_amount (.int 1) = true ∧
    validate_amount (.str "100") = true ∧
    validate_amount (.str "abc") = false := by
  refine ⟨fun i => rfl, fun s n h => ?_, fun s h => ?_, ?_, ?_, ?_, ?_, ?_⟩
  · simp [validate_amount, pyToInt, h]
  · simp [validate_amount, pyToInt, h]
  · decide
  · decide
  · decide
  · decide
  · decide

/-- Witness for `validate_amount_charact` at concrete inputs. -/
theorem validate_amount_charact_witness :
    validate_amount (.str "42") = decide ((0 : Int) < 42) ∧
    validate_amount (.str "4x2") = false :=
  ⟨validate_amount_charact.2.1 "42" 42 (by decide),
   validate_amount_charact.2.2.1 "4x2" (by decide)⟩

/-- Claim C8: `validate_address` is true iff the decoded input (bytes
as-is, a `0x`-led string hex-decoded, any other string UTF-8 encoded)
has length exactly 20, with a decoding failure yielding false; with the
spec's examples. -/
theorem validate_address_charact :
    (∀ a : PyAddress, ∀ b : Bytes, decodeAddress a = some b →
      validate_address a = decide (b.length = 20)) ∧
    (∀ a : PyAddress, decodeAddress a = none → validate_address a = false) ∧
    validate_address (.bytes (List.replicate 20 1)) = true ∧
    validate_address (.bytes (List.replicate 19 1)) = false ∧
    validate_address (.str "0x00112233445566778899aabbccddeeff00112233") = true ∧
    validate_address (.str "0x112233445566778899aabbccddeeff00112233") = false := by
  refine ⟨fun a b h => ?_, fun a h => ?_, ?_, ?_, ?_, ?_⟩
  · simp [validate_address, h]
  · simp [validate_address, h]
  · decide
  · decide
  · decide
  · decide

/-- Witness for `validate_address_charact` at concrete inputs. -/
theorem validate_address_charact_witness :
    validate_address (.bytes [1, 2, 3]) = decide (([1, 2, 3] : Bytes).length = 20) ∧
    validate_address (.str "0xzz") = false :=
  ⟨validate_address_charact.1 (.bytes [1, 2, 3]) [1, 2, 3] (by decide),
   validate_address_charact.2.1 (.str "0xzz") (by decide)⟩


/-- `key_for_account` never raises on an address of length at most 255
(an empty address is skipped by the join, leaving just the tag bytes). -/
theorem key_for_account_isOk (a : Bytes) (h : a.length ≤ 255) :
    ∃ k, key_for_account (.bytes a) = .ok k := by
  match a with
  | [] => exact ⟨[1, 1], rfl⟩
  | x :: xs => exact ⟨_, key_for_account_ok (x :: xs) (by simp) h⟩

/-- Claim C1 evaluated on the code at the spec's self-transfer example:
`from = to` (20 bytes of 3), balance 100, amount 40, fee 10. As claimed,
the batch holds exactly one account set, no delete, and the fee pool
gains 10; but the account is written with amount `100 - 40 - 10 = 50`,
not the claimed `100 - 10 = 90` — the code discards the self-transfer
account value it computes (`updated_to_account`, amount `balance - fee`)
and writes `updated_from_account` (amount `balance - amount - fee`). -/
theorem self_transfer_write_evaluation :
    deliverMessageSend true 1 (fun _ => some ⟨List.replicate 20 3, 100⟩)
      (fun _ => some ⟨0, 0⟩) false (some [9]) (some [9]) none
      ⟨List.replicate 20 3, List.replicate 20 3, 40⟩ (.int 10) =
      .ok ⟨[⟨1 :: 2 :: 8 :: be64 1, .pool ⟨1, 10⟩⟩,
            ⟨1 :: 1 :: 20 :: List.replicate 20 3,
             .acct ⟨List.replicate 20 3, 50⟩⟩], []⟩ := by decide

/-- Claim C5: when the fee-parameter read and decode succeed and the
normalized `tx.fee` is strictly below the decoded minimum send fee,
`check_tx` fails with the fee-below-limit error carrying the fee and
the minimum, and `tx.msg` is never decoded in that call (the second
component of the result is the decoded-flag). -/
theorem check_tx_fee_floor (resp : StateReadResponse)
    (decodeFeeParams : Bytes → Option FeeParams)
    (parseMsgSend : Bytes → Option MessageSend) (tx : Tx)
    (r0 : ReadResult) (rs : List ReadResult) (e0 : StateEntry)
    (es : List StateEntry) (fp : FeeParams) (f m : Int)
    (hresp : resp.error = none)
    (hres : resp.results = r0 :: rs)
    (hent : r0.entries = e0 :: es)
    (hval : e0.value ≠ [])
    (hdec : decodeFeeParams e0.value = some fp)
    (hfee : normalize_amount tx.fee = .ok f)
    (hmin : normalize_amount (.int fp.sendFee) = .ok m)
    (hlt : f < m) :
    checkTx true resp decodeFeeParams parseMsgSend tx =
      (.error (.feeBelowLimit f m), false) := by
  simp [checkTx, hresp, hres, hent, hval, hdec, hfee, hmin, hlt]

/-- Witness for `check_tx_fee_floor`: fee 3 against minimum 10. -/
theorem check_tx_fee_floor_witness :
    checkTx true ⟨none, [⟨5, [⟨[1], [9]⟩]⟩]⟩ (fun _ => some ⟨10⟩)
      (fun _ => none) ⟨.int 3, ⟨"/x", []⟩⟩ =
      (.error (.feeBelowLimit 3 10), false) :=
  check_tx_fee_floor ⟨none, [⟨5, [⟨[1], [9]⟩]⟩]⟩ (fun _ => some ⟨10⟩)
    (fun _ => none) ⟨.int 3, ⟨"/x", []⟩⟩ ⟨5, [⟨[1], [9]⟩]⟩ [] ⟨[1], [9]⟩ []
    ⟨10⟩ 3 10 rfl rfl rfl (by decide) rfl (by decide) (by decide) (by decide)

/-- Claim C3: when the sender's available balance is strictly below
amount + fee, `_deliver_message_send` fails with the insufficient-funds
error carrying the required and available amounts; the error return
issues no `state_write` request (only the `Except.ok` outcome carries
the single write the call would submit). -/
theorem deliver_insufficient_funds (chainId : Int)
    (decodeAccount : Bytes → Option Account)
    (decodePool : Bytes → Option Pool)
    (fromBytes toBytes feePoolBytes : Option Bytes)
    (msg : MessageSend) (fee : PyAmount) (f avail : Int)
    (hfee : normalize_amount fee = .ok f)
    (hamt : 0 < msg.amount)
    (hfrom255 : msg.fromAddress.length ≤ 255)
    (hto255 : msg.toAddress.length ≤ 255)
    (hcid1 : 0 ≤ chainId) (hcid2 : chainId < (2 : Int) ^ 64)
    (havail : fromAmountOfRead decodeAccount fromBytes = some avail)
    (hlt : avail < msg.amount + f) :
    deliverMessageSend true chainId decodeAccount decodePool false
      fromBytes toBytes feePoolBytes msg fee =
      .error (.insufficientFunds (msg.amount + f) avail) := by
  obtain ⟨fk, hfk⟩ := key_for_account_isOk _ hfrom255
  obtain ⟨tk, htk⟩ := key_for_account_isOk _ hto255
  have hpk := key_for_fee_pool_ok chainId hcid1 hcid2
  have hmsg := normalize_amount_int_ok msg.amount hamt
  simp [deliverMessageSend, hfee, hfk, htk, hpk, hmsg, havail, hlt,
    Except.bind, Except.map, bind, Functor.map, throw, throwThe,
    MonadExceptOf.throw, pure, Except.pure]

/-- Witness for `deliver_insufficient_funds`: balance 30, amount 40,
fee 10 — required 50, available 30. -/
theorem deliver_insufficient_funds_witness :
    deliverMessageSend true 1 (fun _ => some ⟨List.replicate 20 1, 30⟩)
      (fun _ => none) false (some [1]) none none
      ⟨List.replicate 20 1, List.replicate 20 2, 40⟩ (.int 10) =
      .error (.insufficientFunds (40 + 10) 30) :=
  deliver_insufficient_funds 1 (fun _ => some ⟨List.replicate 20 1, 30⟩)
    (fun _ => none) (some [1]) none none
    ⟨List.replicate 20 1, List.replicate 20 2, 40⟩ (.int 10) 10 30
    (by decide) (by decide) (by decide) (by decide) (by decide) (by decide)
    (by decide) (by decide)

/-- Claim C4: with distinct 20-byte sender and recipient addresses and a
sender balance of exactly amount + fee, the single write batch of
`_deliver_message_send` deletes the sender key (it is not set to zero),
sets the recipient key to its new balance, and sets the fee pool key;
the `Except.ok` value is the one write request submitted. -/
theorem deliver_zero_balance_deletion (chainId : Int)
    (decodeAccount : Bytes → Option Account)
    (decodePool : Bytes → Option Pool)
    (fromBytes toBytes feePoolBytes : Option Bytes)
    (af at' : Bytes) (mAmt : Int) (fee : PyAmount) (f t p : Int)
    (haf : af.length = 20) (hat : at'.length = 20) (hne : af ≠ at')
    (hfee : normalize_amount fee = .ok f)
    (hamt : 0 < mAmt)
    (hcid1 : 0 ≤ chainId) (hcid2 : chainId < (2 : Int) ^ 64)
    (havail : fromAmountOfRead decodeAccount fromBytes = some (mAmt + f))
    (ht : (toAccountOfRead decodeAccount toBytes at').amount = t)
    (hp : (feePoolOfRead decodePool feePoolBytes).amount = p) :
    deliverMessageSend true chainId decodeAccount decodePool false
      fromBytes toBytes feePoolBytes ⟨af, at', mAmt⟩ fee =
      .ok ⟨[⟨1 :: 2 :: 8 :: be64 chainId.toNat, .pool ⟨chainId, p + f⟩⟩,
            ⟨1 :: 1 :: 20 :: at', .acct ⟨at', t + mAmt⟩⟩],
           [⟨1 :: 1 :: 20 :: af⟩]⟩ := by
  have hfk := key_for_account_ok af (by intro h; subst h; simp at haf)
    (by omega)
  have htk := key_for_account_ok at' (by intro h; subst h; simp at hat)
    (by omega)
  rw [haf] at hfk
  rw [hat] at htk
  have hpk := key_for_fee_pool_ok chainId hcid1 hcid2
  have hmsg := normalize_amount_int_ok mAmt hamt
  have hna := normalize_address_bytes_ok af haf
  have hnb := normalize_address_bytes_ok at' hat
  have hkeyne : ¬ ((1 :: 1 :: 20 :: af : Bytes) = 1 :: 1 :: 20 :: at') := by
    simp [hne]
  have hnlt : ¬ (mAmt + f < mAmt + f) := by omega
  simp [deliverMessageSend, hfee, hfk, htk, hpk, hmsg, hna, hnb, havail,
    hkeyne, hnlt, ht, hp, Except.bind, Except.map, bind, Functor.map,
    throw, throwThe, MonadExceptOf.throw, pure, Except.pure]

/-- Witness for `deliver_zero_balance_deletion`: balance 50, amount 40,
fee 10, distinct addresses. -/
theorem deliver_zero_balance_deletion_witness :
    deliverMessageSend true 1 (fun _ => some ⟨List.replicate 20 1, 50⟩)
      (fun _ => none) false (some [1]) none none
      ⟨List.replicate 20 1, List.replicate 20 2, 40⟩ (.int 10) =
      .ok ⟨[⟨1 :: 2 :: 8 :: be64 (Int.toNat 1), .pool ⟨1, 0 + 10⟩⟩,
            ⟨1 :: 1 :: 20 :: List.replicate 20 2,
             .acct ⟨List.replicate 20 2, 0 + 40⟩⟩],
           [⟨1 :: 1 :: 20 :: List.replicate 20 1⟩]⟩ :=
  deliver_zero_balance_deletion 1 (fun _ => some ⟨List.replicate 20 1, 50⟩)
    (fun _ => none) (some [1]) none none (List.replicate 20 1)
    (List.replicate 20 2) 40 (.int 10) 10 0 0 (by decide) (by decide)
    (by decide) (by decide) (by decide) (by decide) (by decide) (by decide)
    (by decide) (by decide)

/-- Claim C10: `deliver_tx` takes no fee-parameter input at all and
performs no minimum-fee check — for any send message whose normalized
fee is positive, even strictly below an arbitrary state minimum
`minFee`, and whose sender balance covers amount + fee, the call
succeeds and issues its write batch. -/
theorem deliver_ignores_fee_floor (chainId : Int)
    (decodeAccount : Bytes → Option Account)
    (decodePool : Bytes → Option Pool)
    (fromBytes toBytes feePoolBytes : Option Bytes)
    (parseMsgSend : Bytes → Option MessageSend) (tx : Tx)
    (msg : MessageSend) (f avail minFee : Int)
    (hurl : isSendTypeUrl tx.msg.typeUrl = true)
    (hparse : parseMsgSend tx.msg.value = some msg)
    (hfee : normalize_amount tx.fee = .ok f)
    (hbelow : f < minFee)
    (hamt : 0 < msg.amount)
    (haf : msg.fromAddress.length = 20)
    (hat : msg.toAddress.length = 20)
    (hcid1 : 0 ≤ chainId) (hcid2 : chainId < (2 : Int) ^ 64)
    (havail : fromAmountOfRead decodeAccount fromBytes = some avail)
    (hge : msg.amount + f ≤ avail) :
    ∃ w, deliverTx true chainId decodeAccount decodePool false fromBytes
      toBytes feePoolBytes parseMsgSend tx = .ok w := by
  have hfk := key_for_account_ok msg.fromAddress
    (by intro h; rw [h] at haf; simp at haf) (by omega)
  have htk := key_for_account_ok msg.toAddress
    (by intro h; rw [h] at hat; simp at hat) (by omega)
  have hpk := key_for_fee_pool_ok chainId hcid1 hcid2
  have hmsg := normalize_amount_int_ok msg.amount hamt
  have hna := normalize_address_bytes_ok msg.fromAddress haf
  have hnb := normalize_address_bytes_ok msg.toAddress hat
  have hnlt : ¬ (avail < msg.amount + f) := by omega
  simp only [deliverTx, hurl, hparse, if_true, deliverMessageSend, hfee, hfk,
    htk, hpk, hmsg, hna, hnb, havail, hnlt, Except.bind, Except.map, bind,
    Functor.map, throw, throwThe, MonadExceptOf.throw, pure, Except.pure,
    Bool.not_true, if_false, ite_false, ite_true, Bool.false_eq_true,
    not_false_iff]
  exact ⟨_, rfl⟩

/-- Witness for `deliver_ignores_fee_floor`: fee 1 below minimum 1000,
balance 100 covering amount 40 + fee 1. -/
theorem deliver_ignores_fee_floor_witness :
    ∃ w, deliverTx true 1 (fun _ => some ⟨List.replicate 20 1, 100⟩)
      (fun _ => none) false (some [1]) none none
      (fun _ => some ⟨List.replicate 20 1, List.replicate 20 2, 40⟩)
      ⟨.int 1, ⟨"/types.MessageSend", [2]⟩⟩ = .ok w :=
  deliver_ignores_fee_floor 1 (fun _ => some ⟨List.replicate 20 1, 100⟩)
    (fun _ => none) (some [1]) none none
    (fun _ => some ⟨List.replicate 20 1, List.replicate 20 2, 40⟩)
    ⟨.int 1, ⟨"/types.MessageSend", [2]⟩⟩
    ⟨List.replicate 20 1, List.replicate 20 2, 40⟩ 1 100 1000 (by decide)
    (by decide) (by decide) (by decide) (by decide) (by decide) (by decide)
    (by decide) (by decide) (by decide) (by decide)

/-- Claim C9 is false as stated: the three query ids come from three
independent `random.randint` draws with no distinctness check, so a
collision of the draws puts equal ids on different keys of the one
batched read. -/
theorem read_request_ids_counterexample :
    ∃ r, readDeliverRequest 0 0 0 1
        ⟨List.replicate 20 1, List.replicate 20 2, 5⟩ = .ok r ∧
      ¬ (r.keys.map KeyRead.queryId).Nodup := by
  refine ⟨⟨[⟨0, 1 :: 2 :: 8 :: be64 1⟩,
    ⟨0, 1 :: 1 :: 20 :: List.replicate 20 1⟩,
    ⟨0, 1 :: 1 :: 20 :: List.replicate 20 2⟩]⟩, by decide, by decide⟩

/-- Claim C9 (amended): every deliver of a send message issues exactly
one batched read holding exactly three keys — the fee-pool key, the
sender-account key and the recipient-account key — each tagged with one
of the three per-call random draws; the ids are pairwise distinct only
when the draws happen to differ (distinctness is not enforced). -/
theorem read_request_three_keys (qFrom qTo qFee : Nat) (chainId : Int)
    (af at' : Bytes) (mAmt : Int)
    (haf : af ≠ []) (haf2 : af.length ≤ 255)
    (hat : at' ≠ []) (hat2 : at'.length ≤ 255)
    (hcid1 : 0 ≤ chainId) (hcid2 : chainId < (2 : Int) ^ 64) :
    readDeliverRequest qFrom qTo qFee chainId ⟨af, at', mAmt⟩ =
      .ok ⟨[⟨qFee, 1 :: 2 :: 8 :: be64 chainId.toNat⟩,
            ⟨qFrom, 1 :: 1 :: af.length :: af⟩,
            ⟨qTo, 1 :: 1 :: at'.length :: at'⟩]⟩ := by
  simp [readDeliverRequest, key_for_account_ok af haf haf2,
    key_for_account_ok at' hat hat2, key_for_fee_pool_ok chainId hcid1 hcid2,
    Except.bind, bind, pure, Except.pure]

/-- Witness for `read_request_three_keys` at concrete draws 4, 5, 6. -/
theorem read_request_three_keys_witness :
    readDeliverRequest 4 5 6 1
      ⟨List.replicate 20 1, List.replicate 20 2, 7⟩ =
      .ok ⟨[⟨6, 1 :: 2 :: 8 :: be64 (Int.toNat 1)⟩,
            ⟨4, 1 :: 1 :: (List.replicate 20 1).length :: List.replicate 20 1⟩,
            ⟨5, 1 :: 1 :: (List.replicate 20 2).length ::
              List.replicate 20 2⟩]⟩ :=
  read_request_three_keys 4 5 6 1 (List.replicate 20 1)
    (List.replicate 20 2) 7 (by decide) (by decide) (by decide) (by decide)
    (by decide) (by decide)

end CanopyPlugin
